import Mathlib

/-!
# Verification of the OpenManus log-event streaming bridge

Shallow embedding of the core of this repository:

* `src/app/logger.py` — the observer registry (`_log_callbacks`,
  `add_log_callback`, `remove_log_callback`), the fan-out step
  (`_intercept_message`), and the sink configuration (`define_log_level`,
  the module-level `logger = define_log_level().patch(_intercept_message)`).
* `src/main.py` — the per-connection stream driver (`event_stream` inside
  the `/process/` endpoint).

Python callbacks are modelled by their observable behaviour (`CbSpec`):
either the call returns normally or it raises.  The registry is the list
`_log_callbacks`, a slot being `none` after removal, exactly as in the
source.  The agent (`Manus`) is the opaque BackgroundTask collaborator of
the spec: it is modelled by the list of log lines its `run` emits, in
order, and by whether `run` finally returns or raises.

The asyncio scheduling of `event_stream` is embedded by its canonical
fair schedule: a message handed to `asyncio.create_task(queue.put(m))`
is a ready callback of the event loop and therefore lands in the queue
before the driver's 100 ms poll timer can fire, so at every poll the
queue already holds every message emitted so far, in emission order.
Under that schedule the generator's trace of observable events
(frames yielded, observer unregistration, `agent.cleanup()`) is a pure
function of the prompt and the agent behaviour, computed by
`event_stream` below.
-/

/-- Observable behaviour of one registered callback: the call either
returns normally or raises an exception. -/
inductive CbSpec
  | ok
  | raises
deriving DecidableEq, Repr

/-- The module-level list `_log_callbacks` of `src/app/logger.py`.
A removed slot holds `None` (`none`); slots are never deleted. -/
abbrev Registry := List (Option CbSpec)

/-- Embedding of `add_log_callback` (src/app/logger.py lines 9-12):
appends the callback and returns `len(_log_callbacks) - 1` as the ID,
together with the new registry state. -/
def add_log_callback (cbs : Registry) (cb : CbSpec) : Registry × Nat :=
  (cbs ++ [some cb], (cbs ++ [some cb]).length - 1)

/-- Embedding of `remove_log_callback` (src/app/logger.py lines 14-17):
`if 0 <= callback_id < len(_log_callbacks): _log_callbacks[callback_id] = None`.
The ID is an `Int` so that out-of-range and negative handles are
representable; outside the range the call is a no-op. -/
def remove_log_callback (cbs : Registry) (callback_id : Int) : Registry :=
  if 0 ≤ callback_id ∧ callback_id < cbs.length then
    cbs.set callback_id.toNat none
  else
    cbs

/-- Embedding of the fan-out loop of `_intercept_message`
(src/app/logger.py lines 42-48) starting at slot index `i`:

    for callback in _log_callbacks:
        if callback:
            callback(message)

Returns the list of invocations performed (slot index, argument) and
whether an exception escaped the loop.  The loop body has no
`try`/`except`, so a raising callback is invoked (it receives the
message) and then its exception aborts the remainder of the loop. -/
def dispatchFrom (cbs : Registry) (i : Nat) (message : String) :
    List (Nat × String) × Bool :=
  match cbs with
  | [] => ([], false)
  | none :: rest => dispatchFrom rest (i + 1) message
  | some CbSpec.ok :: rest =>
      let r := dispatchFrom rest (i + 1) message
      ((i, message) :: r.1, r.2)
  | some CbSpec.raises :: _ => ([(i, message)], true)

/-- Embedding of `_intercept_message` applied to a rendered record whose
`record["message"]` field is `message`: the fan-out loop over all slots
from index 0. -/
def intercept_message (cbs : Registry) (message : String) :
    List (Nat × String) × Bool :=
  dispatchFrom cbs 0 message

/-- Specification device: the (0-based) indices of the non-`None` slots
of a registry, in order. -/
def activeIdx : Registry → List Nat
  | [] => []
  | none :: rest => (activeIdx rest).map (· + 1)
  | some _ :: rest => 0 :: (activeIdx rest).map (· + 1)
/-- One loguru handler: an output destination plus its level. -/
structure Handler where
  sink : String
  level : String
deriving DecidableEq, Repr

/-- The handler core shared by all logger objects (loguru's `Core`). -/
structure SinkState where
  handlers : List Handler
deriving DecidableEq, Repr

/-- The patchers the bridge installs.  `src/app/logger.py` installs only
`_intercept_message`. -/
inductive PatcherId
  | intercept
deriving DecidableEq, Repr

/-- A loguru logger object: the per-object patcher list (the shared
handler core is threaded separately as `SinkState`). -/
structure LoggerObj where
  patchers : List PatcherId
deriving DecidableEq, Repr

/-- `logger.patch(p)`: a new logger object with `p` appended; the
receiver is unchanged. -/
def patchLogger (l : LoggerObj) (p : PatcherId) : LoggerObj :=
  { patchers := l.patchers ++ [p] }

/-- Embedding of `define_log_level` (src/app/logger.py lines 19-39):
removes every handler (the `try/except ValueError` makes the removal a
no-op when none exist), adds a stderr handler at `print_level` and a
file handler at `logfile_level`, and returns the unpatched `_logger`
(whose patcher list is empty).  The handler core is the only state it
changes. -/
def define_log_level (_st : SinkState) (print_level logfile_level log_name : String) :
    SinkState × LoggerObj :=
  ({ handlers := [⟨"sys.stderr", print_level⟩,
                  ⟨"logs/" ++ log_name ++ ".log", logfile_level⟩] },
   { patchers := [] })

/-- Running the patcher list of a logger object on one record: each
patcher is applied once, in order; an exception raised by a patcher
aborts the remaining patchers and escapes the logging call.  Only
`intercept` touches the observer registry; its invocations are
collected. -/
def runPatchers (ps : List PatcherId) (cbs : Registry) (message : String) :
    List (Nat × String) × Bool :=
  match ps with
  | [] => ([], false)
  | PatcherId.intercept :: rest =>
      let r := intercept_message cbs message
      if r.2 then
        (r.1, true)
      else
        let r2 := runPatchers rest cbs message
        (r.1 ++ r2.1, r2.2)

/-- Logging one message through a logger object against registry `cbs`:
the observer invocations produced by the interception step, and whether
an exception escaped.  Handlers (console/file output) do not touch the
registry and are not observable here. -/
def logEmit (l : LoggerObj) (cbs : Registry) (message : String) :
    List (Nat × String) × Bool :=
  runPatchers l.patchers cbs message

/-- The mutable module state of `src/app/logger.py` that C9 is about:
the shared handler core together with the module-level binding
`logger`. -/
structure World where
  sink : SinkState
  moduleLogger : LoggerObj
deriving DecidableEq, Repr

/-- Module initialisation of `src/app/logger.py`:
`logger = define_log_level()` followed by
`logger = logger.patch(_intercept_message)`. -/
def world0 : World :=
  let r := define_log_level ⟨[]⟩ "INFO" "DEBUG" "20250101000000"
  { sink := r.1, moduleLogger := patchLogger r.2 PatcherId.intercept }

/-- One re-configuration call `define_log_level(pl, fl, nm)` made after
module initialisation: it replaces the handler core; the module binding
`logger` is not reassigned, so its patcher list is untouched. -/
def reconfig (w : World) (pl fl nm : String) : World :=
  { sink := (define_log_level w.sink pl fl nm).1,
    moduleLogger := w.moduleLogger }

/-- Any finite number of re-configuration calls, in order. -/
def reconfigAll (w : World) (cfgs : List (String × String × String)) : World :=
  cfgs.foldl (fun w c => reconfig w c.1 c.2.1 c.2.2) w
/-- Python's whitespace set for `str.strip()`. -/
def isPySpace (c : Char) : Bool :=
  c = ' ' || c = '\t' || c = '\n' || c = '\r' || c = '\x0B' || c = '\x0C'

/-- Embedding of Python's `prompt.strip()` (no argument): drop
whitespace from both ends. -/
def pyStrip (s : String) : String :=
  String.mk (((s.data.dropWhile isPySpace).reverse.dropWhile isPySpace).reverse)

/-- What the agent's `run(prompt)` does, observed through the bridge:
it terminates, either normally or by raising an exception whose
rendered text is `msg`. -/
inductive AgentResult
  | success
  | failure (msg : String)
deriving DecidableEq, Repr

/-- The opaque BackgroundTask collaborator (`Manus`): the log lines its
`run` emits, in emission order, and how `run` terminates. -/
structure AgentBehavior where
  logs : List String
  result : AgentResult
deriving DecidableEq, Repr

/-- The observable events of one connection's `event_stream` generator,
in order: the start of `agent.run` (`create_task(agent.run(prompt))`),
each yielded SSE frame (the exact string yielded), the
`remove_log_callback(callback_id)` call, and the `await agent.cleanup()`
call. -/
inductive Event
  | runStart
  | frame (s : String)
  | unregister
  | cleanup
deriving DecidableEq, Repr

/-- The SSE frame the driver yields for a queue message `m`:
`f"data: {message}\n\n"`. -/
def frameOf (m : String) : Event :=
  Event.frame ("data: " ++ m ++ "\n\n")

/-- Embedding of the drain loop of `event_stream`
(src/main.py lines 59-71):

    while not agent_task.done() or not queue.empty():
        try:
            message = await asyncio.wait_for(queue.get(), timeout=0.1)
            yield f"data: {message}\n\n"
        except asyncio.TimeoutError:
            if agent_task.done() and queue.empty():
                break

State: `q` is the current queue content (front first) and `pending` the
log lines the still-running agent has not yet emitted; the agent is done
exactly when `pending = []`.  Each iteration either receives the queue
head and yields it, or — queue momentarily empty — lets the agent make
progress (its next log line is enqueued by `log_callback` via
`create_task(queue.put(...))` before the next poll).  The loop exits
only when the agent is done and the queue is empty.  Returns the
messages yielded, in order, and the value of `agent_task.done()` at loop
exit. -/
def streamLoop : List String → List String → List String × Bool
  | m :: q', pending =>
      let r := streamLoop q' pending
      (m :: r.1, r.2)
  | [], l :: pending' => streamLoop [l] pending'
  | [], [] => ([], true)
termination_by q pending => 2 * pending.length + q.length
decreasing_by
  all_goals simp [List.length_cons]
  omega

/-- Embedding of the code after the drain loop of `event_stream`
(src/main.py lines 73-84):

    if not agent_task.done():
        await agent_task
    logger.info("Request processing completed.")
    yield "data: Request processing completed.\n\n"
    [except Exception as e: yield error frame]
    [finally: remove_log_callback; await agent.cleanup()]

If `agent_task.done()` is true the `await agent_task` is skipped, so an
exception stored in the task is never retrieved and the normal terminal
frame is yielded.  Only if the task were not yet done would the `await`
re-raise the agent's exception into the `except Exception` block, which
yields `f"data: An error occurred: {str(e)}\n\n"`.  Both the
`logger.info`/`logger.error` calls enqueue their text into the (now
abandoned) bridge queue; that is not an outbound frame.  The `finally`
block always unregisters the observer and then awaits `cleanup()`. -/
def postLoop (agent_done : Bool) (res : AgentResult) : List Event :=
  if agent_done then
    [frameOf "Request processing completed.", Event.unregister, Event.cleanup]
  else
    match res with
    | AgentResult.success =>
        [frameOf "Request processing completed.", Event.unregister, Event.cleanup]
    | AgentResult.failure e =>
        [Event.frame ("data: An error occurred: " ++ e ++ "\n\n"),
         Event.unregister, Event.cleanup]

/-- Embedding of the whole `event_stream` generator
(src/main.py lines 33-84) for one connection, as the trace of its
observable events.

* A queue and the observer `log_callback` are created and registered,
  and `agent = Manus()` is constructed, before the `try` block.
* Empty/whitespace prompt: `logger.warning("Empty prompt provided.")`
  (its text is enqueued into the bridge queue by the observer, but never
  dequeued), one frame `data: Empty prompt provided.\n\n` is yielded,
  and the generator returns; `agent.run` is never started.  The
  `finally` block still unregisters the observer and awaits
  `agent.cleanup()`.
* Otherwise: `logger.info("Processing your request...")` enqueues its
  text as the first queue entry, `create_task(agent.run(prompt))` starts
  the task, the drain loop yields one frame per queue message in order,
  and `postLoop` finishes the stream. -/
def event_stream (prompt : String) (agent : AgentBehavior) : List Event :=
  if pyStrip prompt = "" then
    [Event.frame "data: Empty prompt provided.\n\n",
     Event.unregister, Event.cleanup]
  else
    let r := streamLoop ["Processing your request..."] agent.logs
    Event.runStart :: r.1.map frameOf ++ postLoop r.2 agent.result

/-- The frames of a trace, in order: the strings actually sent to the
client. -/
def framesOf (t : List Event) : List String :=
  match t with
  | [] => []
  | Event.frame s :: rest => s :: framesOf rest
  | Event.runStart :: rest => framesOf rest
  | Event.unregister :: rest => framesOf rest
  | Event.cleanup :: rest => framesOf rest

/-!
## Sequences of registry operations (for the handle-allocation claims)
-/

/-- One operation on the observer registry: a `add_log_callback` call or
a `remove_log_callback` call. -/
inductive RegOp
  | add (cb : CbSpec)
  | remove (id : Int)
deriving DecidableEq, Repr

/-- Run a sequence of registry operations from a starting registry;
returns the final registry and the list of handles the `add` calls
returned, in call order. -/
def runOps : Registry → List RegOp → Registry × List Nat
  | cbs, [] => (cbs, [])
  | cbs, RegOp.add cb :: ops =>
      let r := add_log_callback cbs cb
      let rest := runOps r.1 ops
      (rest.1, r.2 :: rest.2)
  | cbs, RegOp.remove i :: ops => runOps (remove_log_callback cbs i) ops

/-- The number of `add_log_callback` calls in a sequence of operations:
the number of slots those operations create. -/
def countAdds : List RegOp → Nat :=
  List.countP (fun o =>
    match o with
    | RegOp.add _ => true
    | _ => false)

theorem activeIdx_length (cbs : Registry) :
    (activeIdx cbs).length = cbs.countP Option.isSome := by
  induction cbs with
  | nil => rfl
  | cons c rest ih =>
      cases c <;> simp [activeIdx, List.countP_cons, ih]

theorem activeIdx_count (cbs : Registry) (j : Nat) :
    (activeIdx cbs).count j =
      if (cbs.getD j none).isSome then 1 else 0 := by
  have hinj : Function.Injective (· + 1 : Nat → Nat) := by
    intro a b hab
    simpa using hab
  induction cbs generalizing j with
  | nil => simp [activeIdx]
  | cons c rest ih =>
      cases c with
      | none =>
          cases j with
          | zero =>
              simp [activeIdx, List.count_eq_zero, List.getD]
          | succ j' =>
              simp only [activeIdx, List.getD_cons_succ]
              rw [List.count_map_of_injective _ _ hinj]
              exact ih j'
      | some cb =>
          cases j with
          | zero =>
              have h0 : (0 : Nat) ∉ (activeIdx rest).map (· + 1) := by
                simp
              simp [activeIdx, List.count_cons, List.count_eq_zero.mpr h0,
                List.getD]
          | succ j' =>
              simp only [activeIdx, List.getD_cons_succ, List.count_cons]
              rw [List.count_map_of_injective _ _ hinj]
              simp [ih j']

theorem dispatch_map_shift (m : String) (i : Nat) (l : List Nat) :
    l.map ((fun k => (i + k, m)) ∘ (· + 1)) =
      l.map (fun k => (i + 1 + k, m)) := by
  apply List.map_congr_left
  intro k _
  simp only [Function.comp_apply]
  congr 1
  omega

/-- On a registry none of whose callbacks raises, the fan-out loop from
index `i` invokes exactly the active slots, in order, each with the
message verbatim, and no exception escapes. -/
theorem dispatchFrom_no_raise (cbs : Registry) (i : Nat) (m : String)
    (h : ∀ c ∈ cbs, c ≠ some CbSpec.raises) :
    dispatchFrom cbs i m =
      ((activeIdx cbs).map (fun k => (i + k, m)), false) := by
  induction cbs generalizing i with
  | nil => rfl
  | cons c rest ih =>
      have hrest : ∀ c ∈ rest, c ≠ some CbSpec.raises := by
        intro c hc; exact h c (List.mem_cons_of_mem _ hc)
      cases c with
      | none =>
          simp only [dispatchFrom, activeIdx, ih (i + 1) hrest,
            List.map_map, dispatch_map_shift]
      | some cb =>
          cases cb with
          | ok =>
              simp only [dispatchFrom, activeIdx, ih (i + 1) hrest,
                List.map_cons, List.map_map, dispatch_map_shift,
                Nat.add_zero]
          | raises =>
              exact absurd rfl (h (some CbSpec.raises) (List.mem_cons_self _ _))

/-- The fan-out loop on a registry whose first raising callback sits at
position `pre.length`: every earlier active slot is invoked, then the
raising slot is invoked and its exception escapes, and no later slot is
invoked. -/
theorem dispatchFrom_raise (pre post : Registry) (i : Nat) (m : String)
    (h : ∀ c ∈ pre, c ≠ some CbSpec.raises) :
    dispatchFrom (pre ++ some CbSpec.raises :: post) i m =
      ((activeIdx pre).map (fun k => (i + k, m)) ++ [(i + pre.length, m)],
        true) := by
  induction pre generalizing i with
  | nil => simp [dispatchFrom, activeIdx]
  | cons c rest ih =>
      have hrest : ∀ c ∈ rest, c ≠ some CbSpec.raises := by
        intro c hc; exact h c (List.mem_cons_of_mem _ hc)
      have harith : i + 1 + rest.length = i + (rest.length + 1) := by omega
      cases c with
      | none =>
          simp only [List.cons_append, dispatchFrom, List.append_eq,
            ih (i + 1) hrest, activeIdx, List.map_map, dispatch_map_shift,
            List.length_cons, harith]
      | some cb =>
          cases cb with
          | ok =>
              simp only [List.cons_append, dispatchFrom, List.append_eq,
                ih (i + 1) hrest, activeIdx, List.map_cons, List.map_map,
                dispatch_map_shift, List.length_cons, harith, Nat.add_zero]
          | raises =>
              exact absurd rfl (h (some CbSpec.raises) (List.mem_cons_self _ _))

/-!
## The emission sink (`define_log_level` and the module-level `logger`)

Loguru essentials used by `src/app/logger.py`: all handlers (output
destinations) live in a core shared by every logger object, while the
list of patchers is carried per logger object; `logger.patch(p)` returns
a new logger object with `p` appended and leaves `_logger` itself
unchanged.  `define_log_level` only calls `_logger.remove()` and
`_logger.add(...)`, i.e. it touches the shared handler core and returns
the unpatched `_logger`; it never touches any patcher list.
-/


theorem reconfigAll_moduleLogger (w : World) (cfgs : List (String × String × String)) :
    (reconfigAll w cfgs).moduleLogger = w.moduleLogger := by
  induction cfgs generalizing w with
  | nil => rfl
  | cons c rest ih => simpa [reconfigAll, List.foldl_cons] using ih _

/-!
## The stream driver (`event_stream` in `src/main.py`)
-/


theorem streamLoop_cons_q (m : String) (q' pending : List String) :
    streamLoop (m :: q') pending =
      ((m :: (streamLoop q' pending).1), (streamLoop q' pending).2) := by
  simp [streamLoop]

theorem streamLoop_nil_nil : streamLoop [] [] = ([], true) := by
  simp [streamLoop]

theorem streamLoop_nil_cons (l : String) (pending' : List String) :
    streamLoop [] (l :: pending') = streamLoop [l] pending' := by
  simp [streamLoop]

theorem streamLoop_prepend (q pending : List String) :
    streamLoop q pending =
      (q ++ (streamLoop [] pending).1, (streamLoop [] pending).2) := by
  induction q with
  | nil => rfl
  | cons m q' ih => rw [streamLoop_cons_q, ih]; simp

/-- The drain loop yields every queue entry and every agent log line, in
order, and exits with `agent_task.done()` true. -/
theorem streamLoop_eq (q pending : List String) :
    streamLoop q pending = (q ++ pending, true) := by
  induction pending generalizing q with
  | nil => rw [streamLoop_prepend, streamLoop_nil_nil]
  | cons l pending' ih =>
      rw [streamLoop_prepend, streamLoop_nil_cons, ih [l]]
      simp

/-!
## Helper lemmas
-/

theorem count_pair_map (l : List Nat) (j : Nat) (m : String) :
    ((l.map (fun k => (k, m))).count (j, m)) = l.count j := by
  induction l with
  | nil => rfl
  | cons a l ih =>
      simp only [List.map_cons, List.count_cons, ih, Prod.mk.injEq]
      by_cases h : a = j <;> simp [h]

theorem intercept_message_no_raise (cbs : Registry) (m : String)
    (h : ∀ c ∈ cbs, c ≠ some CbSpec.raises) :
    intercept_message cbs m =
      ((activeIdx cbs).map (fun k => (k, m)), false) := by
  have hd := dispatchFrom_no_raise cbs 0 m h
  simpa [intercept_message] using hd

theorem set_none_of_getD_none (l : Registry) (i : Nat)
    (h : l.getD i none = none) : l.set i none = l := by
  induction l generalizing i with
  | nil => rfl
  | cons a l ih =>
      cases i with
      | zero =>
          have ha : a = none := by simpa [List.getD] using h
          simp [List.set, ha]
      | succ i' =>
          have h' : l.getD i' none = none := by
            simpa [List.getD] using h
          simp [List.set, ih i' h']

theorem remove_log_callback_length (cbs : Registry) (id : Int) :
    (remove_log_callback cbs id).length = cbs.length := by
  unfold remove_log_callback
  split <;> simp [List.length_set]

theorem map_add_succ (a : Nat) (l : List Nat) :
    l.map ((a + ·) ∘ Nat.succ) = l.map ((a + 1) + ·) := by
  apply List.map_congr_left
  intro k _
  simp only [Function.comp_apply]
  omega

theorem range_map_add_succ (a n : Nat) :
    a :: (List.range n).map ((a + 1) + ·) = (List.range (n + 1)).map (a + ·) := by
  rw [List.range_succ_eq_map]
  simp only [List.map_cons, Nat.add_zero, List.map_map, map_add_succ]

/-- Along any operation sequence, the handles issued by the `add` calls
are exactly `base, base + 1, base + 2, ...` where `base` is the starting
registry length, and the registry grows by one slot per `add`. -/
theorem runOps_handles (ops : List RegOp) (cbs : Registry) :
    (runOps cbs ops).2 = (List.range (countAdds ops)).map (cbs.length + ·) ∧
    (runOps cbs ops).1.length = cbs.length + countAdds ops := by
  induction ops generalizing cbs with
  | nil => simp [runOps, countAdds]
  | cons op ops ih =>
      cases op with
      | add cb =>
          have h := ih (cbs ++ [some cb])
          have hlen : (cbs ++ [some cb]).length = cbs.length + 1 := by simp
          have hc : countAdds (RegOp.add cb :: ops) = countAdds ops + 1 := by
            simp [countAdds]
          constructor
          · simp only [runOps, add_log_callback, h.1, hlen, hc,
              Nat.add_sub_cancel]
            exact range_map_add_succ cbs.length (countAdds ops)
          · simp only [runOps, add_log_callback, h.2, hlen, hc]
            omega
      | remove i =>
          have h := ih (remove_log_callback cbs i)
          have hc : countAdds (RegOp.remove i :: ops) = countAdds ops := by
            simp [countAdds]
          constructor
          · simp only [runOps, h.1, remove_log_callback_length, hc]
          · simp only [runOps, h.2, remove_log_callback_length, hc]

/-- The trace of `event_stream` for a non-empty prompt: the run starts,
the start frame and every agent log line are yielded in order, then the
terminal frame, then unregistration, then cleanup. -/
theorem event_stream_eq (prompt : String) (agent : AgentBehavior)
    (h : ¬ pyStrip prompt = "") :
    event_stream prompt agent =
      Event.runStart :: frameOf "Processing your request..." ::
        agent.logs.map frameOf ++
        [frameOf "Request processing completed.",
         Event.unregister, Event.cleanup] := by
  simp only [event_stream, if_neg h, streamLoop_eq]
  simp [postLoop]

theorem framesOf_map_frameOf (msgs : List String) (t : List Event) :
    framesOf (msgs.map frameOf ++ t) =
      msgs.map (fun m => "data: " ++ m ++ "\n\n") ++ framesOf t := by
  induction msgs with
  | nil => simp
  | cons m msgs ih => simp [frameOf, framesOf, ih]

/-!
## The claims
-/

/-- C1: for every connection, on every exit path of the stream driver
(normal completion, background-task error, early return), the trace ends
with the terminal frame, then the unregistration of the per-connection
observer, then exactly one `cleanup()` on the BackgroundTask: the
terminal frame is the last frame emitted, no frame is emitted after
unregistration, unregistration precedes `cleanup()`, and neither
unregistration nor `cleanup()` occurs anywhere else in the trace. -/
theorem C1_exit_path_discipline (prompt : String) (agent : AgentBehavior) :
    ∃ pre t,
      event_stream prompt agent =
        pre ++ [Event.frame t, Event.unregister, Event.cleanup] ∧
      Event.unregister ∉ pre ∧ Event.cleanup ∉ pre := by
  by_cases h : pyStrip prompt = ""
  · refine ⟨[], "data: Empty prompt provided.\n\n", ?_, by simp, by simp⟩
    simp [event_stream, h]
  · refine ⟨Event.runStart :: frameOf "Processing your request..." ::
      agent.logs.map frameOf,
      "data: Request processing completed.\n\n", ?_, ?_, ?_⟩
    · rw [event_stream_eq prompt agent h]
      simp [frameOf]
    · simp [frameOf]
    · simp [frameOf]

/-- C3 counterexample: on the whitespace-only prompt `"   "` the claim
says cleanup of the (nonexistent) task is skipped, but in the code
`agent = Manus()` is constructed before the prompt check and the
`finally` block runs `await agent.cleanup()` on the early-return path as
well, so `cleanup` occurs in the trace. -/
theorem C3_cleanup_not_skipped :
    Event.cleanup ∈ event_stream "   " ⟨[], AgentResult.success⟩ := by
  decide

/-- C3 as amended: for every request whose prompt is empty or
whitespace-only, the stream driver emits exactly one frame,
`data: Empty prompt provided.`, then terminates the stream; the
BackgroundTask's `run` is never started (no `runStart` in the trace),
but the agent object is still constructed and the `finally` block still
unregisters the observer and invokes `cleanup()` on it. -/
theorem C3_empty_prompt (prompt : String) (agent : AgentBehavior)
    (h : pyStrip prompt = "") :
    event_stream prompt agent =
      [Event.frame "data: Empty prompt provided.\n\n",
       Event.unregister, Event.cleanup] := by
  simp [event_stream, h]

theorem C3_empty_prompt_witness :
    pyStrip "   " = "" ∧
    event_stream "   " ⟨["late line"], AgentResult.success⟩ =
      [Event.frame "data: Empty prompt provided.\n\n",
       Event.unregister, Event.cleanup] :=
  ⟨by decide, C3_empty_prompt "   " ⟨["late line"], AgentResult.success⟩ (by decide)⟩

/-- C4: for a request with a non-empty prompt whose BackgroundTask emits
exactly two log lines and then completes without error, the client
receives exactly the four frames `frame("Processing your request...")`,
`frame(line1)`, `frame(line2)`, `frame("Request processing completed.")`
in that order, and then the stream closes (only unregistration and
cleanup follow). -/
theorem C4_normal_scenario (prompt l1 l2 : String)
    (h : ¬ pyStrip prompt = "") :
    event_stream prompt ⟨[l1, l2], AgentResult.success⟩ =
      [Event.runStart,
       Event.frame "data: Processing your request...\n\n",
       Event.frame ("data: " ++ l1 ++ "\n\n"),
       Event.frame ("data: " ++ l2 ++ "\n\n"),
       Event.frame "data: Request processing completed.\n\n",
       Event.unregister, Event.cleanup] := by
  rw [event_stream_eq prompt ⟨[l1, l2], AgentResult.success⟩ h]
  simp [frameOf]

theorem C4_normal_scenario_witness :
    ¬ pyStrip "hello" = "" ∧
    event_stream "hello" ⟨["line1", "line2"], AgentResult.success⟩ =
      [Event.runStart,
       Event.frame "data: Processing your request...\n\n",
       Event.frame "data: line1\n\n",
       Event.frame "data: line2\n\n",
       Event.frame "data: Request processing completed.\n\n",
       Event.unregister, Event.cleanup] :=
  ⟨by decide, by simpa using C4_normal_scenario "hello" "line1" "line2" (by decide)⟩

/-- C5: for every connection with a non-empty prompt and every finite
sequence of messages emitted in order by its BackgroundTask, the frames
the client receives are exactly one frame per message, in emission
order, with no gaps and no duplicates, bracketed by the start frame and
the terminal frame; in particular the terminal frame is emitted only
after every queued message has been drained, so no message is silently
lost. -/
theorem C5_per_connection_fifo (prompt : String) (agent : AgentBehavior)
    (h : ¬ pyStrip prompt = "") :
    framesOf (event_stream prompt agent) =
      "data: Processing your request...\n\n" ::
        agent.logs.map (fun m => "data: " ++ m ++ "\n\n") ++
        ["data: Request processing completed.\n\n"] := by
  rw [event_stream_eq prompt agent h]
  simp [framesOf, frameOf, framesOf_map_frameOf, List.append_eq]

theorem C5_per_connection_fifo_witness :
    ¬ pyStrip "hi" = "" ∧
    framesOf (event_stream "hi" ⟨["m1", "m2", "m3"], AgentResult.success⟩) =
      ["data: Processing your request...\n\n",
       "data: m1\n\n", "data: m2\n\n", "data: m3\n\n",
       "data: Request processing completed.\n\n"] :=
  ⟨by decide, by
    simpa using C5_per_connection_fifo "hi" ⟨["m1", "m2", "m3"], AgentResult.success⟩
      (by decide)⟩

/-- C8: the claim says a BackgroundTask exception is caught and surfaced
as one error frame.  In the code the drain loop
`while not agent_task.done() or not queue.empty()` can only exit with
`agent_task.done()` true, so the guarded `await agent_task` is never
executed, the exception stored in the failed task is never retrieved,
and the driver yields the normal terminal frame instead of an error
frame.  At the concrete failing input (prompt `"hello"`, agent that
emits one line and raises `boom`), the trace equals the success trace,
contains no error frame, and still contains cleanup. -/
theorem C8_failure_scenario_divergence :
    event_stream "hello" ⟨["step one"], AgentResult.failure "boom"⟩ =
      [Event.runStart,
       Event.frame "data: Processing your request...\n\n",
       Event.frame "data: step one\n\n",
       Event.frame "data: Request processing completed.\n\n",
       Event.unregister, Event.cleanup] ∧
    (∀ e ∈ event_stream "hello" ⟨["step one"], AgentResult.failure "boom"⟩,
       e ≠ Event.frame "data: An error occurred: boom\n\n") ∧
    Event.cleanup ∈ event_stream "hello" ⟨["step one"], AgentResult.failure "boom"⟩ := by
  have heq : event_stream "hello" ⟨["step one"], AgentResult.failure "boom"⟩ =
      [Event.runStart,
       Event.frame "data: Processing your request...\n\n",
       Event.frame "data: step one\n\n",
       Event.frame "data: Request processing completed.\n\n",
       Event.unregister, Event.cleanup] := by
    rw [event_stream_eq "hello" ⟨["step one"], AgentResult.failure "boom"⟩ (by decide)]
    simp [frameOf]
  refine ⟨heq, ?_, ?_⟩
  · rw [heq]
    decide
  · rw [heq]
    decide

/-- C2 counterexample: with the registry `[raising, ok]`, dispatching a
message invokes the raising callback, its exception escapes the fan-out
loop of `_intercept_message` (there is no `try`/`except` around the
callback call), and the second callback is never invoked — refuting
"caught and dropped at the dispatch boundary" and "does not prevent
delivery to subsequent callbacks". -/
theorem C2_exception_escapes :
    (intercept_message [some CbSpec.raises, some CbSpec.ok] "m").2 = true ∧
    (1, "m") ∉ (intercept_message [some CbSpec.raises, some CbSpec.ok] "m").1 := by
  decide

/-- C2 as amended: if a callback raises during dispatch, the exception
is NOT caught at the dispatch boundary: every active callback in an
earlier slot has already been invoked with the message, the raising
callback is invoked, and then its exception propagates out of the
fan-out loop, so no later slot is invoked. -/
theorem C2_dispatch_aborts_on_raise (pre post : Registry) (m : String)
    (h : ∀ c ∈ pre, c ≠ some CbSpec.raises) :
    intercept_message (pre ++ some CbSpec.raises :: post) m =
      ((activeIdx pre).map (fun k => (k, m)) ++ [(pre.length, m)], true) := by
  have hd := dispatchFrom_raise pre post 0 m h
  simpa [intercept_message] using hd

theorem C2_dispatch_aborts_on_raise_witness :
    (∀ c ∈ ([some CbSpec.ok] : Registry), c ≠ some CbSpec.raises) ∧
    intercept_message [some CbSpec.ok, some CbSpec.raises, some CbSpec.ok] "msg" =
      ([(0, "msg"), (1, "msg")], true) :=
  ⟨by decide, by
    simpa [activeIdx] using
      C2_dispatch_aborts_on_raise [some CbSpec.ok] [some CbSpec.ok] "msg" (by decide)⟩

/-- C6 counterexample: in the registry `[ok, raising, ok]` there are
three active slots, but dispatching one message delivers only two
invocations — the raising callback's exception aborts the loop before
the third active slot — so the total delivery count is not `N`. -/
theorem C6_fanout_incomplete_on_raise :
    (intercept_message [some CbSpec.ok, some CbSpec.raises, some CbSpec.ok] "x").1.length ≠
      ([some CbSpec.ok, some CbSpec.raises, some CbSpec.ok] : Registry).countP
        Option.isSome := by
  decide

/-- C6 as amended: for every registry state none of whose active
callbacks raises, one dispatch invokes each of the `N` active callbacks
exactly once, passing the message verbatim, invokes no empty slot, the
total delivery count equals `N`, and no exception escapes.  (If an
active callback raises, it and the earlier active slots are invoked once
each but the later slots are not — see the counterexample.) -/
theorem C6_fanout_complete (cbs : Registry) (m : String)
    (h : ∀ c ∈ cbs, c ≠ some CbSpec.raises) :
    (intercept_message cbs m).1.length = cbs.countP Option.isSome ∧
    (∀ j, (cbs.getD j none).isSome →
      (intercept_message cbs m).1.count (j, m) = 1) ∧
    (∀ j s, cbs.getD j none = none → (j, s) ∉ (intercept_message cbs m).1) ∧
    (∀ j s, (j, s) ∈ (intercept_message cbs m).1 → s = m) ∧
    (intercept_message cbs m).2 = false := by
  have hbase := intercept_message_no_raise cbs m h
  refine ⟨?_, ?_, ?_, ?_, ?_⟩
  · rw [hbase]
    simp [activeIdx_length]
  · intro j hj
    rw [hbase]
    simp only [count_pair_map, activeIdx_count cbs j]
    rw [if_pos hj]
  · intro j s hj hmem
    rw [hbase] at hmem
    rcases List.mem_map.mp hmem with ⟨k, hk, hks⟩
    have hkj : k = j := by
      have := congrArg Prod.fst hks
      simpa using this
    subst hkj
    have hcnt : (activeIdx cbs).count k = 0 := by
      rw [activeIdx_count cbs k, hj]
      simp
    exact (List.count_eq_zero.mp hcnt) hk
  · intro j s hmem
    rw [hbase] at hmem
    rcases List.mem_map.mp hmem with ⟨k, _, hks⟩
    have := congrArg Prod.snd hks
    simpa using this.symm
  · rw [hbase]

theorem C6_fanout_complete_witness :
    (∀ c ∈ ([some CbSpec.ok, none, some CbSpec.ok] : Registry),
      c ≠ some CbSpec.raises) ∧
    (intercept_message [some CbSpec.ok, none, some CbSpec.ok] "w").1.length =
      ([some CbSpec.ok, none, some CbSpec.ok] : Registry).countP Option.isSome :=
  ⟨by decide,
   (C6_fanout_complete [some CbSpec.ok, none, some CbSpec.ok] "w" (by decide)).1⟩

/-- C7: unregistering marks the slot Empty in place: the slot list keeps
its length (indices of other handles are stable), every other index is
untouched, unregistering twice equals unregistering once, an
out-of-range (including negative, i.e. never-issued) handle is a no-op
that never raises, an in-range unregister leaves `None` in the slot, and
unregistering an already-Empty slot leaves the registry unchanged. -/
theorem C7_unregister_idempotent_stable (cbs : Registry) (id : Int) :
    (remove_log_callback cbs id).length = cbs.length ∧
    (∀ j : Nat, (j : Int) ≠ id →
      (remove_log_callback cbs id).getD j none = cbs.getD j none) ∧
    remove_log_callback (remove_log_callback cbs id) id =
      remove_log_callback cbs id ∧
    (¬ (0 ≤ id ∧ id < (cbs.length : Int)) → remove_log_callback cbs id = cbs) ∧
    ((0 ≤ id ∧ id < (cbs.length : Int)) →
      (remove_log_callback cbs id).getD id.toNat none = none) ∧
    (cbs.getD id.toNat none = none → remove_log_callback cbs id = cbs) := by
  by_cases hcond : 0 ≤ id ∧ id < (cbs.length : Int)
  · have hlt : id.toNat < cbs.length := by omega
    have h1 : remove_log_callback cbs id = cbs.set id.toNat none := by
      simp [remove_log_callback, hcond]
    have h2 : remove_log_callback (cbs.set id.toNat none) id =
        (cbs.set id.toNat none).set id.toNat none := by
      simp [remove_log_callback, List.length_set, hcond]
    refine ⟨?_, ?_, ?_, ?_, ?_, ?_⟩
    · rw [h1, List.length_set]
    · intro j hj
      have hne : id.toNat ≠ j := by omega
      rw [h1, List.getD_eq_getElem?_getD, List.getD_eq_getElem?_getD,
        List.getElem?_set_ne hne]
    · rw [h1, h2, List.set_set]
    · intro hc
      exact absurd hcond hc
    · intro _
      rw [h1, List.getD_eq_getElem?_getD, List.getElem?_set_eq_of_lt _ hlt]
      rfl
    · intro hnone
      rw [h1]
      exact set_none_of_getD_none cbs id.toNat hnone
  · have h1 : remove_log_callback cbs id = cbs := by
      simp [remove_log_callback, hcond]
    refine ⟨?_, ?_, ?_, ?_, ?_, ?_⟩
    · rw [h1]
    · intro j _
      rw [h1]
    · simp only [h1]
    · intro _
      exact h1
    · intro hc
      exact absurd hc hcond
    · intro _
      exact h1

theorem C7_unregister_idempotent_stable_witness :
    remove_log_callback (remove_log_callback [some CbSpec.ok, some CbSpec.ok] 0) 0 =
      remove_log_callback [some CbSpec.ok, some CbSpec.ok] 0 :=
  (C7_unregister_idempotent_stable [some CbSpec.ok, some CbSpec.ok] 0).2.2.1

/-- C9: re-initialising the output destinations (calling
`define_log_level` again, any number of times, with any arguments) is
idempotent with respect to the interception step: the module-level
`logger` still carries exactly one `_intercept_message` patcher, and a
message logged through it is delivered to each registered observer
exactly once — interception is neither duplicated nor dropped by
re-configuration. -/
theorem C9_reconfig_preserves_interception
    (cfgs : List (String × String × String)) (cbs : Registry) (i : Nat)
    (m : String)
    (h : ∀ c ∈ cbs, c ≠ some CbSpec.raises)
    (hi : cbs.getD i none = some CbSpec.ok) :
    (reconfigAll world0 cfgs).moduleLogger.patchers = [PatcherId.intercept] ∧
    (logEmit (reconfigAll world0 cfgs).moduleLogger cbs m).1.count (i, m) = 1 ∧
    (logEmit (reconfigAll world0 cfgs).moduleLogger cbs m).2 = false := by
  have hmod : (reconfigAll world0 cfgs).moduleLogger = ⟨[PatcherId.intercept]⟩ := by
    rw [reconfigAll_moduleLogger]
    rfl
  have hbase := intercept_message_no_raise cbs m h
  have hemit : logEmit ⟨[PatcherId.intercept]⟩ cbs m =
      ((activeIdx cbs).map (fun k => (k, m)), false) := by
    simp [logEmit, runPatchers, hbase]
  have hsome : (cbs.getD i none).isSome = true := by
    rw [hi]
    rfl
  refine ⟨by rw [hmod], ?_, by rw [hmod, hemit]⟩
  rw [hmod, hemit]
  simp only [count_pair_map, activeIdx_count cbs i]
  rw [if_pos hsome]

theorem C9_reconfig_preserves_interception_witness :
    (∀ c ∈ ([some CbSpec.ok] : Registry), c ≠ some CbSpec.raises) ∧
    ([some CbSpec.ok] : Registry).getD 0 none = some CbSpec.ok ∧
    (logEmit (reconfigAll world0 [("DEBUG", "DEBUG", "run2")]).moduleLogger
      [some CbSpec.ok] "hello").1.count (0, "hello") = 1 :=
  ⟨by decide, by decide,
   (C9_reconfig_preserves_interception [("DEBUG", "DEBUG", "run2")]
     [some CbSpec.ok] 0 "hello" (by decide) (by decide)).2.1⟩

/-- C10: starting from the empty registry, the handles issued by the
`add_log_callback` calls of any operation sequence are exactly
`0, 1, 2, ...` in call order — each equals the number of slots created
so far minus one, each is strictly greater than every previously issued
handle (so handles are never recycled, even after `remove_log_callback`,
and never alias), and each returned handle is the new list length minus
one. -/
theorem C10_handles_never_recycled (ops : List RegOp) :
    (runOps [] ops).2 = List.range (countAdds ops) ∧
    List.Pairwise (· < ·) (runOps [] ops).2 ∧
    (∀ cbs cb, (add_log_callback cbs cb).2 + 1 =
      (add_log_callback cbs cb).1.length) := by
  have h := (runOps_handles ops []).1
  have hr : (runOps [] ops).2 = List.range (countAdds ops) := by
    rw [h]
    simp
  refine ⟨hr, ?_, ?_⟩
  · rw [hr]
    exact List.pairwise_lt_range _
  · intro cbs cb
    simp only [add_log_callback, List.length_append, List.length_cons,
      List.length_nil]
    omega
